import Mathlib

/-!
Verification of the BrainAccess Core EEG session manager specification.

The repository ships the public C headers (`core/eeg_manager.h`, `core/error.h`,
`bacore.h`) together with example client programs; the implementation of the
session state machine itself is not part of the sources.  The error-code table
below is embedded directly from `src/include/core/error.h`.  The session state
machine, its staged/committed channel configuration, annotation log and
callback delivery are modelled from the specification (spec.md sections 3, 4.1,
4.2, 5, 7), faithful to the header documentation in `core/eeg_manager.h`.
-/

/-! ## Error codes, embedded from src/include/core/error.h -/

/-- No error (`#define BA_ERROR_OK 0`). -/
def BA_ERROR_OK : Nat := 0

/-- Connection error (`#define BA_ERROR_CONNECTION 1`). -/
def BA_ERROR_CONNECTION : Nat := 1

/-- Unsupported device error (`#define BA_ERROR_UNSUPPORTED_DEVICE 2`). -/
def BA_ERROR_UNSUPPORTED_DEVICE : Nat := 2

/-- Wrong value error (`#define BA_ERROR_WRONG_VALUE 3`). -/
def BA_ERROR_WRONG_VALUE : Nat := 3

/-- Bluetooth disabled error (`#define BA_ERROR_BLUETOOTH_DISABLED 4`). -/
def BA_ERROR_BLUETOOTH_DISABLED : Nat := 4

/-- Bluetooth adapter not found (`#define BA_ERROR_BLUETOOTH_ADAPTER_NOT_FOUND 5`). -/
def BA_ERROR_BLUETOOTH_ADAPTER_NOT_FOUND : Nat := 5

/-- Adapter out of index (`#define BA_ERROR_ADAPTER_OUT_OF_INDEX 6`). -/
def BA_ERROR_ADAPTER_OUT_OF_INDEX : Nat := 6

/-- OTA update file not found (`#define BA_ERROR_UPDATE_FILE_NOT_FOUND 7`). -/
def BA_ERROR_UPDATE_FILE_NOT_FOUND : Nat := 7

/-- OTA update initiated unsuccessfully (`#define BA_ERROR_UPDATE_INITIATED_UNSUCCESSFULLY 8`). -/
def BA_ERROR_UPDATE_INITIATED_UNSUCCESSFULLY : Nat := 8

/-- OTA update failed, device disconnect (`#define BA_ERROR_UPDATE_FAILED_DEVICE_DISCONNECTED 9`). -/
def BA_ERROR_UPDATE_FAILED_DEVICE_DISCONNECTED : Nat := 9

/-- Annotation unavailable while calibrating (`#define BA_ERROR_ANNOTATION_UNAVAILABLE_CALIBRATING 10`). -/
def BA_ERROR_ANNOTATION_UNAVAILABLE_CALIBRATING : Nat := 10

/-- Zero devices found (`#define BA_ERROR_NO_DEVICES_FOUND 11`). -/
def BA_ERROR_NO_DEVICES_FOUND : Nat := 11

/-- Unknown error (`#define BA_ERROR_UNKNOWN 0xFF`). -/
def BA_ERROR_UNKNOWN : Nat := 0xFF

/-- The defined failure codes of `ba_error` (every code other than `BA_ERROR_OK`),
in the order they are defined in `src/include/core/error.h`. -/
def baErrorFailureCodes : List Nat :=
  [BA_ERROR_CONNECTION, BA_ERROR_UNSUPPORTED_DEVICE, BA_ERROR_WRONG_VALUE,
   BA_ERROR_BLUETOOTH_DISABLED, BA_ERROR_BLUETOOTH_ADAPTER_NOT_FOUND,
   BA_ERROR_ADAPTER_OUT_OF_INDEX, BA_ERROR_UPDATE_FILE_NOT_FOUND,
   BA_ERROR_UPDATE_INITIATED_UNSUCCESSFULLY,
   BA_ERROR_UPDATE_FAILED_DEVICE_DISCONNECTED,
   BA_ERROR_ANNOTATION_UNAVAILABLE_CALIBRATING,
   BA_ERROR_NO_DEVICES_FOUND, BA_ERROR_UNKNOWN]

/-- The sentinel `(size_t)-1` returned by `ba_eeg_manager_get_channel_index`
for a channel not present in the current stream (64-bit `size_t`). -/
def SIZE_MAX : Nat := 2 ^ 64 - 1

/-! ## Data model, modelled from the spec -/

/-- Modelled from the spec: logical device channels.  The spec (section 3)
distinguishes channels whose capability set includes "analog measurement"
(electrode measurement channels) from non-configurable channels such as the
sample counter and digital input. -/
inductive BaEegChannel where
  | electrodeMeasurement : Fin 8 → BaEegChannel
  | sampleCounter : BaEegChannel
  | digitalInput : BaEegChannel
deriving DecidableEq

/-- Modelled from the spec: whether a channel's capability set includes
"analog measurement" (spec section 3); only such channels are configurable. -/
def hasAnalogCapability : BaEegChannel → Bool
  | BaEegChannel.electrodeMeasurement _ => true
  | BaEegChannel.sampleCounter => false
  | BaEegChannel.digitalInput => false

/-- Modelled from the spec: bias role of a channel, enumerated
none/positive/negative/both (spec section 3, `ba_polarity`). -/
inductive BaPolarity where
  | noneP : BaPolarity
  | positiveP : BaPolarity
  | negativeP : BaPolarity
  | bothP : BaPolarity
deriving DecidableEq

/-- Modelled from the spec: a channel configuration snapshot — per-channel
enable (kept as the list of enabled channels in enable order, which determines
chunk index assignment at stream start), per-channel gain mode, per-channel
bias role, and the impedance measurement mode.  Gain and impedance modes are
abstracted as natural numbers (the spec only requires them to be enumerated). -/
structure StreamConfig where
  enabledOrder : List BaEegChannel
  gain : BaEegChannel → Nat
  bias : BaEegChannel → BaPolarity
  impedanceMode : Nat

/-- The configuration with no channel enabled and all settings at their
defaults; the staged configuration is reset to this by a stream stop
(`core/eeg_manager.h`: "Calling this function resets all stream settings"). -/
def defaultStreamConfig : StreamConfig :=
  ⟨[], fun _ => 0, fun _ => BaPolarity.noneP, 0⟩

/-- Modelled from the spec: `ba_eeg_manager_set_channel_enabled` acting on a
configuration snapshot.  Enabling appends the channel to the enable order (if
not already present); disabling removes it.  Entries for channels lacking the
analog-measurement capability are fixed (spec section 3), so the call is a
no-op on them. -/
def cfgSetChannelEnabled (cfg : StreamConfig) (ch : BaEegChannel) (state : Bool) : StreamConfig :=
  if hasAnalogCapability ch then
    if state then
      if ch ∈ cfg.enabledOrder then cfg
      else { cfg with enabledOrder := cfg.enabledOrder ++ [ch] }
    else { cfg with enabledOrder := cfg.enabledOrder.filter (fun c => decide (c ≠ ch)) }
  else cfg

/-- Modelled from the spec: `ba_eeg_manager_set_channel_gain` acting on a
configuration snapshot; only affects channels that support it
(`core/eeg_manager.h`: "it affects the electrode measurement channels but not
sample number or digital input"). -/
def cfgSetChannelGain (cfg : StreamConfig) (ch : BaEegChannel) (g : Nat) : StreamConfig :=
  if hasAnalogCapability ch then { cfg with gain := Function.update cfg.gain ch g }
  else cfg

/-- Modelled from the spec: `ba_eeg_manager_set_channel_bias` acting on a
configuration snapshot; only affects channels that support it. -/
def cfgSetChannelBias (cfg : StreamConfig) (ch : BaEegChannel) (p : BaPolarity) : StreamConfig :=
  if hasAnalogCapability ch then { cfg with bias := Function.update cfg.bias ch p }
  else cfg

/-- Modelled from the spec: `ba_eeg_manager_set_impedance_mode` acting on a
configuration snapshot (a device-wide setting, no channel argument). -/
def cfgSetImpedanceMode (cfg : StreamConfig) (m : Nat) : StreamConfig :=
  { cfg with impedanceMode := m }

/-- Modelled from the spec: the session states of section 4.1:
`Disconnected → Connecting → Connected → Streaming`, plus the `Updating`
sub-state reachable only from `Connected`. -/
inductive SessionPhase where
  | Disconnected : SessionPhase
  | Connecting : SessionPhase
  | Connected : SessionPhase
  | Streaming : SessionPhase
  | Updating : SessionPhase
deriving DecidableEq

/-- The kinds of asynchronous operations that carry a completion callback
(spec section 3, "Pending Operation"). -/
inductive OpKind where
  | connectOp : OpKind
  | startOp : OpKind
  | stopOp : OpKind
  | loadOp : OpKind
  | updateOp : OpKind
deriving DecidableEq

/-- The outcome reported by a completion callback: success, failure due to
disconnection (link loss superseding the pending operation, spec section 4.1),
or another failure carrying an error code. -/
inductive CompletionRes where
  | ok : CompletionRes
  | failedDisconnected : CompletionRes
  | failed : Nat → CompletionRes
deriving DecidableEq

/-- Observable outputs of a step: a completion callback resolving the pending
operation identified by its token, or an invocation of one of the registered
user callbacks (chunk / battery / disconnect). -/
inductive OutEvent where
  | completion : Nat → CompletionRes → OutEvent
  | chunkCallback : OutEvent
  | batteryCallback : OutEvent
  | disconnectCallback : OutEvent
deriving DecidableEq

/-- Modelled from the spec: the Session attributes of section 3 — phase,
staged configuration, committed (active-stream) configuration snapshot, the
single pending-operation slot (section 4.2: "only one session-level command is
outstanding at a time given the state preconditions"), a token counter
identifying issued operations, the annotation log, whether a connect has ever
completed successfully, the battery cache, and which user callbacks are
registered (true) or null (false). -/
structure Session where
  phase : SessionPhase
  staged : StreamConfig
  committed : Option StreamConfig
  pending : Option (Nat × OpKind)
  nextToken : Nat
  annotations : List (Nat × String)
  everConnected : Bool
  battery : Nat
  chunkCb : Bool
  batteryCb : Bool
  disconnectCb : Bool

/-- Modelled from the spec: the session together with its collaborators'
observable state — the device's persisted configuration (written when a stream
start is acknowledged, read back by `load_config`) and whether the local OTA
update payload can be located. -/
structure World where
  session : Session
  deviceConfig : StreamConfig
  updateFileOk : Bool

/-- Input events: the public session operations issued by the application, and
the inbound transport events (acknowledgements, link loss, data and battery
pushes) delivered asynchronously by the device. -/
inductive Event where
  | opConnect : Event
  | opDisconnect : Event
  | opStartStream : Event
  | opStopStream : Event
  | opLoadConfig : Event
  | opStartUpdate : Event
  | opSetChannelEnabled : BaEegChannel → Bool → Event
  | opSetChannelGain : BaEegChannel → Nat → Event
  | opSetChannelBias : BaEegChannel → BaPolarity → Event
  | opSetImpedanceMode : Nat → Event
  | opAnnotate : Nat → String → Event
  | opClearAnnotations : Event
  | opSetCallbackChunk : Bool → Event
  | opSetCallbackBattery : Bool → Event
  | opSetCallbackDisconnect : Bool → Event
  | devAckConnect : Bool → Event
  | devAckStart : Bool → Event
  | devAckStop : Event
  | devAckLoad : Event
  | devAckUpdate : Bool → Event
  | devLinkLost : Event
  | devChunk : Event
  | devBatteryPush : Nat → Event
deriving DecidableEq

/-- The result of processing one event: the new world, the emitted outputs, and
the synchronous `ba_error` return value (0 for events without one). -/
structure StepResult where
  world : World
  out : List OutEvent
  ret : Nat

/-- A rejected operation: a precondition violation is reported as a
distinguished error value, leaving the world untouched and emitting nothing
(spec section 7(a)). -/
def reject (w : World) : StepResult := ⟨w, [], BA_ERROR_WRONG_VALUE⟩

/-- An ignored inbound event: no state change, no output. -/
def ignore (w : World) : StepResult := ⟨w, [], BA_ERROR_OK⟩

/-- Completions resolving whatever operation is pending with a
failed-due-to-disconnection outcome (spec section 5: disconnection "forces
resolution (with a disconnection failure) of whatever was pending"). -/
def resolveAllPending (s : Session) : List OutEvent :=
  match s.pending with
  | some (t, _) => [OutEvent.completion t CompletionRes.failedDisconnected]
  | none => []

/-- Modelled from the spec: handling of an unsolicited `link_lost()` transport
event (spec sections 4.1 and 7(c)): at any state other than `Disconnected` it
resolves the outstanding completion (if any) as failed-due-to-disconnection,
invokes the disconnect callback if one is registered, clears the annotation
log and the committed configuration, and forces the state to `Disconnected`. -/
def onLinkLost (w : World) : StepResult :=
  if w.session.phase = SessionPhase.Disconnected then ignore w
  else
    ⟨{ w with session := { w.session with
          phase := SessionPhase.Disconnected, pending := none,
          committed := none, annotations := [] } },
      resolveAllPending w.session ++
        (if w.session.disconnectCb then [OutEvent.disconnectCallback] else []),
      BA_ERROR_OK⟩

/-- Modelled from the spec: the session state machine of spec section 4.1,
processing one application operation or inbound transport event.  Operation
preconditions follow section 4.1; with the single pending-operation slot of
section 4.2, every asynchronous operation additionally requires that no
operation is outstanding.  Acknowledgements that do not match the pending
operation's kind are ignored. -/
def step (w : World) (e : Event) : StepResult :=
  match e with
  | Event.opConnect =>
    if w.session.phase = SessionPhase.Disconnected then
      if w.session.pending = none then
        ⟨{ w with session := { w.session with
              phase := SessionPhase.Connecting,
              pending := some (w.session.nextToken, OpKind.connectOp),
              nextToken := w.session.nextToken + 1 } },
          [], BA_ERROR_OK⟩
      else reject w
    else reject w
  | Event.opDisconnect =>
    if w.session.phase = SessionPhase.Disconnected then ignore w
    else
      ⟨{ w with session := { w.session with
            phase := SessionPhase.Disconnected, pending := none,
            committed := none, annotations := [] } },
        resolveAllPending w.session, BA_ERROR_OK⟩
  | Event.opStartStream =>
    if w.session.phase = SessionPhase.Connected then
      if w.session.pending = none then
        ⟨{ w with session := { w.session with
              committed := some w.session.staged,
              pending := some (w.session.nextToken, OpKind.startOp),
              nextToken := w.session.nextToken + 1 } },
          [], BA_ERROR_OK⟩
      else reject w
    else reject w
  | Event.opStopStream =>
    if w.session.phase = SessionPhase.Streaming then
      if w.session.pending = none then
        ⟨{ w with session := { w.session with
              pending := some (w.session.nextToken, OpKind.stopOp),
              nextToken := w.session.nextToken + 1 } },
          [], BA_ERROR_OK⟩
      else reject w
    else reject w
  | Event.opLoadConfig =>
    if w.session.phase = SessionPhase.Connected then
      if w.session.pending = none then
        ⟨{ w with session := { w.session with
              pending := some (w.session.nextToken, OpKind.loadOp),
              nextToken := w.session.nextToken + 1 } },
          [], BA_ERROR_OK⟩
      else reject w
    else reject w
  | Event.opStartUpdate =>
    if w.session.phase = SessionPhase.Connected then
      if w.session.pending = none then
        if w.updateFileOk then
          ⟨{ w with session := { w.session with
                phase := SessionPhase.Updating,
                pending := some (w.session.nextToken, OpKind.updateOp),
                nextToken := w.session.nextToken + 1 } },
            [], BA_ERROR_OK⟩
        else
          ⟨{ w with session := { w.session with
                nextToken := w.session.nextToken + 1 } },
            [OutEvent.completion w.session.nextToken
              (CompletionRes.failed BA_ERROR_UPDATE_FILE_NOT_FOUND)],
            BA_ERROR_OK⟩
      else reject w
    else reject w
  | Event.opSetChannelEnabled ch b =>
    ⟨{ w with session := { w.session with staged := cfgSetChannelEnabled w.session.staged ch b } },
      [], BA_ERROR_OK⟩
  | Event.opSetChannelGain ch g =>
    ⟨{ w with session := { w.session with staged := cfgSetChannelGain w.session.staged ch g } },
      [], BA_ERROR_OK⟩
  | Event.opSetChannelBias ch p =>
    ⟨{ w with session := { w.session with staged := cfgSetChannelBias w.session.staged ch p } },
      [], BA_ERROR_OK⟩
  | Event.opSetImpedanceMode m =>
    ⟨{ w with session := { w.session with staged := cfgSetImpedanceMode w.session.staged m } },
      [], BA_ERROR_OK⟩
  | Event.opAnnotate ts txt =>
    if w.session.phase = SessionPhase.Streaming then
      ⟨{ w with session := { w.session with annotations := w.session.annotations ++ [(ts, txt)] } },
        [], BA_ERROR_OK⟩
    else reject w
  | Event.opClearAnnotations =>
    ⟨{ w with session := { w.session with annotations := [] } }, [], BA_ERROR_OK⟩
  | Event.opSetCallbackChunk b =>
    ⟨{ w with session := { w.session with chunkCb := b } }, [], BA_ERROR_OK⟩
  | Event.opSetCallbackBattery b =>
    ⟨{ w with session := { w.session with batteryCb := b } }, [], BA_ERROR_OK⟩
  | Event.opSetCallbackDisconnect b =>
    ⟨{ w with session := { w.session with disconnectCb := b } }, [], BA_ERROR_OK⟩
  | Event.devAckConnect success =>
    match w.session.pending with
    | some (t, OpKind.connectOp) =>
      if success then
        ⟨{ w with session := { w.session with
              phase := SessionPhase.Connected, pending := none, everConnected := true } },
          [OutEvent.completion t CompletionRes.ok], BA_ERROR_OK⟩
      else
        ⟨{ w with session := { w.session with
              phase := SessionPhase.Disconnected, pending := none } },
          [OutEvent.completion t (CompletionRes.failed BA_ERROR_CONNECTION)], BA_ERROR_OK⟩
    | _ => ignore w
  | Event.devAckStart success =>
    match w.session.pending with
    | some (t, OpKind.startOp) =>
      if success then
        ⟨{ w with
            session := { w.session with phase := SessionPhase.Streaming, pending := none },
            deviceConfig := match w.session.committed with
              | some c => c
              | none => w.deviceConfig },
          [OutEvent.completion t CompletionRes.ok], BA_ERROR_OK⟩
      else
        ⟨{ w with session := { w.session with pending := none, committed := none } },
          [OutEvent.completion t (CompletionRes.failed BA_ERROR_UNKNOWN)], BA_ERROR_OK⟩
    | _ => ignore w
  | Event.devAckStop =>
    match w.session.pending with
    | some (t, OpKind.stopOp) =>
      ⟨{ w with session := { w.session with
            phase := SessionPhase.Connected, pending := none,
            committed := none, staged := defaultStreamConfig } },
        [OutEvent.completion t CompletionRes.ok], BA_ERROR_OK⟩
    | _ => ignore w
  | Event.devAckLoad =>
    match w.session.pending with
    | some (t, OpKind.loadOp) =>
      ⟨{ w with session := { w.session with
            pending := none, staged := w.deviceConfig } },
        [OutEvent.completion t CompletionRes.ok], BA_ERROR_OK⟩
    | _ => ignore w
  | Event.devAckUpdate success =>
    match w.session.pending with
    | some (t, OpKind.updateOp) =>
      if success then
        ⟨{ w with session := { w.session with
              phase := SessionPhase.Connected, pending := none } },
          [OutEvent.completion t CompletionRes.ok], BA_ERROR_OK⟩
      else
        ⟨{ w with session := { w.session with
              phase := SessionPhase.Disconnected, pending := none,
              committed := none, annotations := [] } },
          [OutEvent.completion t
              (CompletionRes.failed BA_ERROR_UPDATE_FAILED_DEVICE_DISCONNECTED)] ++
            (if w.session.disconnectCb then [OutEvent.disconnectCallback] else []),
          BA_ERROR_OK⟩
    | _ => ignore w
  | Event.devLinkLost => onLinkLost w
  | Event.devChunk =>
    if w.session.phase = SessionPhase.Streaming then
      ⟨w, if w.session.chunkCb then [OutEvent.chunkCallback] else [], BA_ERROR_OK⟩
    else ignore w
  | Event.devBatteryPush v =>
    ⟨{ w with session := { w.session with battery := v } },
      if w.session.batteryCb then [OutEvent.batteryCallback] else [], BA_ERROR_OK⟩

/-- Processes a list of events in order, accumulating the emitted outputs. -/
def run : World → List Event → World × List OutEvent
  | w, [] => (w, [])
  | w, e :: es =>
    let r := step w e
    let p := run r.world es
    (p.1, r.out ++ p.2)

/-- The initial world: a freshly created manager (`ba_eeg_manager_new`),
disconnected, with default staged configuration, empty annotation log and all
callbacks unset; the device's persisted configuration starts at the default and
the update payload is assumed locatable. -/
def initWorld : World :=
  ⟨⟨SessionPhase.Disconnected, defaultStreamConfig, none, none, 0, [], false, 0,
      false, false, false⟩,
    defaultStreamConfig, true⟩

/-! ## Source-named API wrappers -/

/-- Modelled from the spec: `ba_eeg_manager_connect` (the device name is not
part of the abstract state). -/
def ba_eeg_manager_connect (w : World) : StepResult := step w Event.opConnect

/-- Modelled from the spec: `ba_eeg_manager_disconnect`. -/
def ba_eeg_manager_disconnect (w : World) : StepResult := step w Event.opDisconnect

/-- Modelled from the spec: `ba_eeg_manager_start_stream`. -/
def ba_eeg_manager_start_stream (w : World) : StepResult := step w Event.opStartStream

/-- Modelled from the spec: `ba_eeg_manager_stop_stream`. -/
def ba_eeg_manager_stop_stream (w : World) : StepResult := step w Event.opStopStream

/-- Modelled from the spec: `ba_eeg_manager_load_config`. -/
def ba_eeg_manager_load_config (w : World) : StepResult := step w Event.opLoadConfig

/-- Modelled from the spec: `ba_eeg_manager_start_update`. -/
def ba_eeg_manager_start_update (w : World) : StepResult := step w Event.opStartUpdate

/-- Modelled from the spec: `ba_eeg_manager_set_channel_enabled`. -/
def ba_eeg_manager_set_channel_enabled (w : World) (ch : BaEegChannel) (state : Bool) : StepResult :=
  step w (Event.opSetChannelEnabled ch state)

/-- Modelled from the spec: `ba_eeg_manager_set_channel_gain`. -/
def ba_eeg_manager_set_channel_gain (w : World) (ch : BaEegChannel) (g : Nat) : StepResult :=
  step w (Event.opSetChannelGain ch g)

/-- Modelled from the spec: `ba_eeg_manager_set_channel_bias`. -/
def ba_eeg_manager_set_channel_bias (w : World) (ch : BaEegChannel) (p : BaPolarity) : StepResult :=
  step w (Event.opSetChannelBias ch p)

/-- Modelled from the spec: `ba_eeg_manager_set_impedance_mode`. -/
def ba_eeg_manager_set_impedance_mode (w : World) (m : Nat) : StepResult :=
  step w (Event.opSetImpedanceMode m)

/-- Modelled from the spec: `ba_eeg_manager_annotate` (the current timestamp is
supplied explicitly). -/
def ba_eeg_manager_annotate (w : World) (ts : Nat) (txt : String) : StepResult :=
  step w (Event.opAnnotate ts txt)

/-- Modelled from the spec: `ba_eeg_manager_clear_annotations`. -/
def ba_eeg_manager_clear_annotations (w : World) : StepResult :=
  step w Event.opClearAnnotations

/-- Modelled from the spec: `ba_eeg_manager_set_callback_chunk` (`true` for a
non-null callback, `false` for null). -/
def ba_eeg_manager_set_callback_chunk (w : World) (cb : Bool) : StepResult :=
  step w (Event.opSetCallbackChunk cb)

/-- Modelled from the spec: `ba_eeg_manager_set_callback_battery`. -/
def ba_eeg_manager_set_callback_battery (w : World) (cb : Bool) : StepResult :=
  step w (Event.opSetCallbackBattery cb)

/-- Modelled from the spec: `ba_eeg_manager_set_callback_disconnect`. -/
def ba_eeg_manager_set_callback_disconnect (w : World) (cb : Bool) : StepResult :=
  step w (Event.opSetCallbackDisconnect cb)

/-- Modelled from the spec: `ba_eeg_manager_get_channel_index` — valid only
while streaming; returns the channel's position in the enable order committed
at stream start, and the `(size_t)-1` sentinel when the channel is not enabled
for the current stream (`core/eeg_manager.h` lines 256-272). -/
def ba_eeg_manager_get_channel_index (w : World) (ch : BaEegChannel) : Nat :=
  match w.session.phase, w.session.committed with
  | SessionPhase.Streaming, some c =>
    if ch ∈ c.enabledOrder then c.enabledOrder.indexOf ch else SIZE_MAX
  | _, _ => SIZE_MAX

/-- Modelled from the spec: `ba_eeg_manager_get_annotations` returns the
accumulated annotation log in append order. -/
def ba_eeg_manager_get_annotations (w : World) : List (Nat × String) :=
  w.session.annotations

/-- Modelled from the spec: `ba_eeg_manager_is_streaming`. -/
def ba_eeg_manager_is_streaming (w : World) : Bool :=
  w.session.phase = SessionPhase.Streaming

/-! ## Completion accounting -/

/-- The tokens of the completion callbacks among a list of outputs. -/
def completionToks (outs : List OutEvent) : List Nat :=
  outs.filterMap (fun o => match o with
    | OutEvent.completion t _ => some t
    | _ => none)

/-- How many completion callbacks for the operation identified by token `t`
occur in a list of outputs. -/
def compCount (t : Nat) (outs : List OutEvent) : Nat :=
  (completionToks outs).count t

/-- The token of the operation currently pending, if any. -/
def pendingTok (w : World) : Option Nat :=
  Option.map Prod.fst w.session.pending

theorem completionToks_nil : completionToks [] = [] := rfl

theorem completionToks_append (l1 l2 : List OutEvent) :
    completionToks (l1 ++ l2) = completionToks l1 ++ completionToks l2 :=
  List.filterMap_append l1 l2 _

theorem compCount_append (t : Nat) (l1 l2 : List OutEvent) :
    compCount t (l1 ++ l2) = compCount t l1 + compCount t l2 := by
  simp [compCount, completionToks_append, List.count_append]

/-- Every step of the session machine acts on the pending slot, token counter
and emitted completions in one of four ways: it leaves the slot and counter
untouched and completes nothing; it fills the empty slot with a fresh token;
it empties the slot, completing exactly its token; or it allocates a fresh
token and completes it immediately (update payload missing). -/
def StepShape (w : World) (r : StepResult) : Prop :=
  (completionToks r.out = [] ∧ r.world.session.pending = w.session.pending ∧
    r.world.session.nextToken = w.session.nextToken) ∨
  (w.session.pending = none ∧
    (∃ k, r.world.session.pending = some (w.session.nextToken, k)) ∧
    r.world.session.nextToken = w.session.nextToken + 1 ∧
    completionToks r.out = []) ∨
  (∃ t k, w.session.pending = some (t, k) ∧ r.world.session.pending = none ∧
    r.world.session.nextToken = w.session.nextToken ∧
    completionToks r.out = [t]) ∨
  (w.session.pending = none ∧ r.world.session.pending = none ∧
    r.world.session.nextToken = w.session.nextToken + 1 ∧
    completionToks r.out = [w.session.nextToken])

theorem step_shape (w : World) (e : Event) : StepShape w (step w e) := by
  unfold StepShape
  cases e
  case opConnect =>
    by_cases h1 : w.session.phase = SessionPhase.Disconnected
    · by_cases h2 : w.session.pending = none
      · right; left
        exact ⟨h2, ⟨OpKind.connectOp, by simp [step, h1, h2]⟩,
          by simp [step, h1, h2], by simp [step, h1, h2, completionToks]⟩
      · left; simp [step, h1, h2, reject, completionToks]
    · left; simp [step, h1, reject, completionToks]
  case opDisconnect =>
    by_cases h1 : w.session.phase = SessionPhase.Disconnected
    · left; simp [step, h1, ignore, completionToks]
    · rcases hp : w.session.pending with _ | ⟨t, k⟩
      · left; simp [step, h1, hp, resolveAllPending, completionToks]
      · right; right; left
        exact ⟨t, k, rfl, by simp [step, h1, hp], by simp [step, h1],
          by simp [step, h1, hp, resolveAllPending, completionToks]⟩
  case opStartStream =>
    by_cases h1 : w.session.phase = SessionPhase.Connected
    · by_cases h2 : w.session.pending = none
      · right; left
        exact ⟨h2, ⟨OpKind.startOp, by simp [step, h1, h2]⟩,
          by simp [step, h1, h2], by simp [step, h1, h2, completionToks]⟩
      · left; simp [step, h1, h2, reject, completionToks]
    · left; simp [step, h1, reject, completionToks]
  case opStopStream =>
    by_cases h1 : w.session.phase = SessionPhase.Streaming
    · by_cases h2 : w.session.pending = none
      · right; left
        exact ⟨h2, ⟨OpKind.stopOp, by simp [step, h1, h2]⟩,
          by simp [step, h1, h2], by simp [step, h1, h2, completionToks]⟩
      · left; simp [step, h1, h2, reject, completionToks]
    · left; simp [step, h1, reject, completionToks]
  case opLoadConfig =>
    by_cases h1 : w.session.phase = SessionPhase.Connected
    · by_cases h2 : w.session.pending = none
      · right; left
        exact ⟨h2, ⟨OpKind.loadOp, by simp [step, h1, h2]⟩,
          by simp [step, h1, h2], by simp [step, h1, h2, completionToks]⟩
      · left; simp [step, h1, h2, reject, completionToks]
    · left; simp [step, h1, reject, completionToks]
  case opStartUpdate =>
    by_cases h1 : w.session.phase = SessionPhase.Connected
    · by_cases h2 : w.session.pending = none
      · by_cases h3 : w.updateFileOk = true
        · right; left
          exact ⟨h2, ⟨OpKind.updateOp, by simp [step, h1, h2, h3]⟩,
            by simp [step, h1, h2, h3], by simp [step, h1, h2, h3, completionToks]⟩
        · right; right; right
          exact ⟨h2, by simp [step, h1, h2, h3], by simp [step, h1, h2, h3],
            by simp [step, h1, h2, h3, completionToks]⟩
      · left; simp [step, h1, h2, reject, completionToks]
    · left; simp [step, h1, reject, completionToks]
  case opSetChannelEnabled ch b =>
    left; simp [step, completionToks]
  case opSetChannelGain ch g =>
    left; simp [step, completionToks]
  case opSetChannelBias ch p =>
    left; simp [step, completionToks]
  case opSetImpedanceMode m =>
    left; simp [step, completionToks]
  case opAnnotate ts txt =>
    by_cases h1 : w.session.phase = SessionPhase.Streaming
    · left; simp [step, h1, completionToks]
    · left; simp [step, h1, reject, completionToks]
  case opClearAnnotations =>
    left; simp [step, completionToks]
  case opSetCallbackChunk b =>
    left; simp [step, completionToks]
  case opSetCallbackBattery b =>
    left; simp [step, completionToks]
  case opSetCallbackDisconnect b =>
    left; simp [step, completionToks]
  case devAckConnect success =>
    rcases hp : w.session.pending with _ | ⟨t, k⟩
    · left; simp [step, hp, ignore, completionToks]
    · cases k
      case connectOp =>
        right; right; left
        cases success
        · exact ⟨t, OpKind.connectOp, rfl, by simp [step, hp], by simp [step, hp],
            by simp [step, hp, completionToks]⟩
        · exact ⟨t, OpKind.connectOp, rfl, by simp [step, hp], by simp [step, hp],
            by simp [step, hp, completionToks]⟩
      case startOp => left; simp [step, hp, ignore, completionToks]
      case stopOp => left; simp [step, hp, ignore, completionToks]
      case loadOp => left; simp [step, hp, ignore, completionToks]
      case updateOp => left; simp [step, hp, ignore, completionToks]
  case devAckStart success =>
    rcases hp : w.session.pending with _ | ⟨t, k⟩
    · left; simp [step, hp, ignore, completionToks]
    · cases k
      case startOp =>
        right; right; left
        cases success
        · exact ⟨t, OpKind.startOp, rfl, by simp [step, hp], by simp [step, hp],
            by simp [step, hp, completionToks]⟩
        · exact ⟨t, OpKind.startOp, rfl, by simp [step, hp], by simp [step, hp],
            by simp [step, hp, completionToks]⟩
      case connectOp => left; simp [step, hp, ignore, completionToks]
      case stopOp => left; simp [step, hp, ignore, completionToks]
      case loadOp => left; simp [step, hp, ignore, completionToks]
      case updateOp => left; simp [step, hp, ignore, completionToks]
  case devAckStop =>
    rcases hp : w.session.pending with _ | ⟨t, k⟩
    · left; simp [step, hp, ignore, completionToks]
    · cases k
      case stopOp =>
        right; right; left
        exact ⟨t, OpKind.stopOp, rfl, by simp [step, hp], by simp [step, hp],
          by simp [step, hp, completionToks]⟩
      case connectOp => left; simp [step, hp, ignore, completionToks]
      case startOp => left; simp [step, hp, ignore, completionToks]
      case loadOp => left; simp [step, hp, ignore, completionToks]
      case updateOp => left; simp [step, hp, ignore, completionToks]
  case devAckLoad =>
    rcases hp : w.session.pending with _ | ⟨t, k⟩
    · left; simp [step, hp, ignore, completionToks]
    · cases k
      case loadOp =>
        right; right; left
        exact ⟨t, OpKind.loadOp, rfl, by simp [step, hp], by simp [step, hp],
          by simp [step, hp, completionToks]⟩
      case connectOp => left; simp [step, hp, ignore, completionToks]
      case startOp => left; simp [step, hp, ignore, completionToks]
      case stopOp => left; simp [step, hp, ignore, completionToks]
      case updateOp => left; simp [step, hp, ignore, completionToks]
  case devAckUpdate success =>
    rcases hp : w.session.pending with _ | ⟨t, k⟩
    · left; simp [step, hp, ignore, completionToks]
    · cases k
      case updateOp =>
        right; right; left
        cases success
        · cases hcb : w.session.disconnectCb
          · exact ⟨t, OpKind.updateOp, rfl, by simp [step, hp], by simp [step, hp],
              by simp [step, hp, hcb, completionToks]⟩
          · exact ⟨t, OpKind.updateOp, rfl, by simp [step, hp], by simp [step, hp],
              by simp [step, hp, hcb, completionToks]⟩
        · exact ⟨t, OpKind.updateOp, rfl, by simp [step, hp], by simp [step, hp],
            by simp [step, hp, completionToks]⟩
      case connectOp => left; simp [step, hp, ignore, completionToks]
      case startOp => left; simp [step, hp, ignore, completionToks]
      case stopOp => left; simp [step, hp, ignore, completionToks]
      case loadOp => left; simp [step, hp, ignore, completionToks]
  case devLinkLost =>
    by_cases h1 : w.session.phase = SessionPhase.Disconnected
    · left; simp [step, onLinkLost, h1, ignore, completionToks]
    · rcases hp : w.session.pending with _ | ⟨t, k⟩
      · left
        refine ⟨?_, by simp [step, onLinkLost, h1, hp], by simp [step, onLinkLost, h1]⟩
        cases hcb : w.session.disconnectCb <;>
          simp [step, onLinkLost, h1, hp, hcb, resolveAllPending, completionToks]
      · right; right; left
        refine ⟨t, k, rfl, by simp [step, onLinkLost, h1, hp],
          by simp [step, onLinkLost, h1], ?_⟩
        cases hcb : w.session.disconnectCb <;>
          simp [step, onLinkLost, h1, hp, hcb, resolveAllPending, completionToks]
  case devChunk =>
    by_cases h1 : w.session.phase = SessionPhase.Streaming
    · left
      cases hcb : w.session.chunkCb <;> simp [step, h1, hcb, completionToks]
    · left; simp [step, h1, ignore, completionToks]
  case devBatteryPush v =>
    left
    cases hcb : w.session.batteryCb <;> simp [step, hcb, completionToks]

/-- Every token in the pending slot was allocated: it is below the token
counter. -/
def pendBound (w : World) : Prop :=
  ∀ t k, w.session.pending = some (t, k) → t < w.session.nextToken

theorem pendBound_step (w : World) (e : Event) (h : pendBound w) :
    pendBound (step w e).world := by
  rcases step_shape w e with ⟨_, hpend, hntk⟩ | ⟨_, ⟨k, hpend⟩, hntk, _⟩ |
    ⟨t0, k0, _, hpend, hntk, _⟩ | ⟨_, hpend, hntk, _⟩ <;> intro t k' hk <;>
    rw [hpend] at hk <;> rw [hntk]
  · exact Nat.lt_of_lt_of_le (h t k' hk) (Nat.le_refl _)
  · obtain ⟨h1, h2⟩ := Prod.mk.injEq .. ▸ Option.some.inj hk
    omega
  · exact absurd hk (by simp)
  · exact absurd hk (by simp)

theorem pendingTok_lt (w : World) (hb : pendBound w) (t : Nat)
    (h : pendingTok w = some t) : t < w.session.nextToken := by
  rcases hp : w.session.pending with _ | ⟨t', k⟩
  · simp [pendingTok, hp] at h
  · have hlt := hb t' k hp
    simp [pendingTok, hp] at h
    omega

/-- The per-token ledger of a run: starting from any world whose pending token
is allocated, every token is (a) never completed twice, (b) completed exactly
once unless it is still the pending one, and (c) untouched if it was already
dead or was never allocated. -/
theorem run_ledger (es : List Event) : ∀ (w : World), pendBound w →
    pendBound (run w es).1 ∧
    w.session.nextToken ≤ (run w es).1.session.nextToken ∧
    (∀ t, t < w.session.nextToken → pendingTok w ≠ some t →
      compCount t (run w es).2 = 0 ∧ pendingTok (run w es).1 ≠ some t) ∧
    (∀ t, pendingTok w = some t →
      (pendingTok (run w es).1 = some t ∧ compCount t (run w es).2 = 0) ∨
      (pendingTok (run w es).1 ≠ some t ∧ compCount t (run w es).2 = 1)) ∧
    (∀ t, w.session.nextToken ≤ t →
      (pendingTok (run w es).1 = some t ∧ compCount t (run w es).2 = 0 ∧
        t < (run w es).1.session.nextToken) ∨
      (compCount t (run w es).2 = 1 ∧ pendingTok (run w es).1 ≠ some t ∧
        t < (run w es).1.session.nextToken) ∨
      (compCount t (run w es).2 = 0 ∧ pendingTok (run w es).1 ≠ some t ∧
        (run w es).1.session.nextToken ≤ t)) := by
  induction es with
  | nil =>
    intro w hb
    refine ⟨hb, Nat.le_refl _, ?_, ?_, ?_⟩
    · intro t _ hne
      exact ⟨by simp [run, compCount, completionToks], hne⟩
    · intro t hpw
      exact Or.inl ⟨hpw, by simp [run, compCount, completionToks]⟩
    · intro t ht
      refine Or.inr (Or.inr ⟨by simp [run, compCount, completionToks], ?_, ht⟩)
      intro hpw
      exact absurd (pendingTok_lt w hb t hpw) (by omega)
  | cons e es ih =>
    intro w hb
    have hb' : pendBound (step w e).world := pendBound_step w e hb
    obtain ⟨ihB, ihM, ihD, ihP, ihN⟩ := ih (step w e).world hb'
    have hrun1 : (run w (e :: es)).1 = (run (step w e).world es).1 := rfl
    have hrun2 : (run w (e :: es)).2 = (step w e).out ++ (run (step w e).world es).2 := rfl
    rw [hrun1, hrun2]
    rcases step_shape w e with ⟨htk, hpend, hntk⟩ | ⟨hpnone, ⟨k, hpend⟩, hntk, htk⟩ |
      ⟨t0, k0, hpw0, hpend, hntk, htk⟩ | ⟨hpnone, hpend, hntk, htk⟩
    · -- no pending-slot activity in this step
      have hc0 : ∀ t, compCount t (step w e).out = 0 := by
        intro t; simp [compCount, htk]
      have hpt : pendingTok (step w e).world = pendingTok w := by
        simp [pendingTok, hpend]
      refine ⟨ihB, by omega, ?_, ?_, ?_⟩
      · intro t ht hne
        obtain ⟨c2, ne2⟩ := ihD t (by omega) (by rw [hpt]; exact hne)
        exact ⟨by rw [compCount_append, hc0, c2], ne2⟩
      · intro t hpw
        rcases ihP t (by rw [hpt]; exact hpw) with ⟨pe, c2⟩ | ⟨pe, c2⟩
        · exact Or.inl ⟨pe, by rw [compCount_append, hc0, c2]⟩
        · exact Or.inr ⟨pe, by rw [compCount_append, hc0, c2]⟩
      · intro t ht
        rcases ihN t (by omega) with ⟨pe, c2, hl⟩ | ⟨c2, pe, hl⟩ | ⟨c2, pe, hge⟩
        · exact Or.inl ⟨pe, by rw [compCount_append, hc0, c2], hl⟩
        · exact Or.inr (Or.inl ⟨by rw [compCount_append, hc0, c2], pe, hl⟩)
        · exact Or.inr (Or.inr ⟨by rw [compCount_append, hc0, c2], pe, hge⟩)
    · -- a fresh operation is accepted into the empty slot
      have hc0 : ∀ t, compCount t (step w e).out = 0 := by
        intro t; simp [compCount, htk]
      have hpt : pendingTok (step w e).world = some w.session.nextToken := by
        simp [pendingTok, hpend]
      refine ⟨ihB, by omega, ?_, ?_, ?_⟩
      · intro t ht hne
        obtain ⟨c2, ne2⟩ := ihD t (by omega) (by rw [hpt]; intro hx; simp at hx; omega)
        exact ⟨by rw [compCount_append, hc0, c2], ne2⟩
      · intro t hpw
        simp [pendingTok, hpnone] at hpw
      · intro t ht
        by_cases hteq : t = w.session.nextToken
        · subst hteq
          rcases ihP w.session.nextToken hpt with ⟨pe, c2⟩ | ⟨pe, c2⟩
          · exact Or.inl ⟨pe, by rw [compCount_append, hc0, c2], by omega⟩
          · exact Or.inr (Or.inl ⟨by rw [compCount_append, hc0, c2], pe, by omega⟩)
        · rcases ihN t (by omega) with ⟨pe, c2, hl⟩ | ⟨c2, pe, hl⟩ | ⟨c2, pe, hge⟩
          · exact Or.inl ⟨pe, by rw [compCount_append, hc0, c2], hl⟩
          · exact Or.inr (Or.inl ⟨by rw [compCount_append, hc0, c2], pe, hl⟩)
          · exact Or.inr (Or.inr ⟨by rw [compCount_append, hc0, c2], pe, hge⟩)
    · -- the pending operation resolves, completing exactly its token
      have hc1 : ∀ t, compCount t (step w e).out = if t0 = t then 1 else 0 := by
        intro t; simp [compCount, htk, List.count_singleton']
      have hpt : pendingTok (step w e).world = none := by
        simp [pendingTok, hpend]
      have hptw : pendingTok w = some t0 := by simp [pendingTok, hpw0]
      have ht0lt : t0 < w.session.nextToken := hb t0 k0 hpw0
      refine ⟨ihB, by omega, ?_, ?_, ?_⟩
      · intro t ht hne
        have htne : t0 ≠ t := by
          intro hx; subst hx; exact hne hptw
        obtain ⟨c2, ne2⟩ := ihD t (by omega) (by rw [hpt]; simp)
        exact ⟨by rw [compCount_append, hc1, c2]; simp [htne], ne2⟩
      · intro t hpw
        rw [hptw] at hpw
        have hte : t = t0 := by
          have := Option.some.inj hpw; omega
        subst hte
        obtain ⟨c2, ne2⟩ := ihD t (by omega) (by rw [hpt]; simp)
        refine Or.inr ⟨ne2, ?_⟩
        rw [compCount_append, hc1, c2]; simp
      · intro t ht
        have htne : t0 ≠ t := by omega
        rcases ihN t (by omega) with ⟨pe, c2, hl⟩ | ⟨c2, pe, hl⟩ | ⟨c2, pe, hge⟩
        · exact Or.inl ⟨pe, by rw [compCount_append, hc1, c2]; simp [htne], hl⟩
        · exact Or.inr (Or.inl ⟨by rw [compCount_append, hc1, c2]; simp [htne], pe, hl⟩)
        · exact Or.inr (Or.inr ⟨by rw [compCount_append, hc1, c2]; simp [htne], pe, hge⟩)
    · -- a fresh operation is accepted and completed immediately
      have hc1 : ∀ t, compCount t (step w e).out =
          if w.session.nextToken = t then 1 else 0 := by
        intro t; simp [compCount, htk, List.count_singleton']
      have hpt : pendingTok (step w e).world = none := by
        simp [pendingTok, hpend]
      refine ⟨ihB, by omega, ?_, ?_, ?_⟩
      · intro t ht hne
        have htne : w.session.nextToken ≠ t := by omega
        obtain ⟨c2, ne2⟩ := ihD t (by omega) (by rw [hpt]; simp)
        exact ⟨by rw [compCount_append, hc1, c2]; simp [htne], ne2⟩
      · intro t hpw
        simp [pendingTok, hpnone] at hpw
      · intro t ht
        by_cases hteq : t = w.session.nextToken
        · subst hteq
          obtain ⟨c2, ne2⟩ := ihD w.session.nextToken (by omega) (by rw [hpt]; simp)
          refine Or.inr (Or.inl ⟨?_, ne2, by omega⟩)
          rw [compCount_append, hc1, c2]; simp
        · have htne : w.session.nextToken ≠ t := by omega
          rcases ihN t (by omega) with ⟨pe, c2, hl⟩ | ⟨c2, pe, hl⟩ | ⟨c2, pe, hge⟩
          · exact Or.inl ⟨pe, by rw [compCount_append, hc1, c2]; simp [htne], hl⟩
          · exact Or.inr (Or.inl ⟨by rw [compCount_append, hc1, c2]; simp [htne], pe, hl⟩)
          · exact Or.inr (Or.inr ⟨by rw [compCount_append, hc1, c2]; simp [htne], pe, hge⟩)

/-! ## Session invariant -/

/-- The session phase in which an operation of the given kind can be pending
(spec section 4.1 preconditions). -/
def phaseOfPending : OpKind → SessionPhase
  | OpKind.connectOp => SessionPhase.Connecting
  | OpKind.startOp => SessionPhase.Connected
  | OpKind.stopOp => SessionPhase.Streaming
  | OpKind.loadOp => SessionPhase.Connected
  | OpKind.updateOp => SessionPhase.Updating

/-- The state invariant of the session machine: a connected-family phase
implies a successful connect has happened; the pending operation is consistent
with the phase; and every enable order (staged, committed, device-persisted)
lists each channel at most once. -/
def SessionInv (w : World) : Prop :=
  (match w.session.phase with
   | SessionPhase.Disconnected => True
   | SessionPhase.Connecting => True
   | SessionPhase.Connected => w.session.everConnected = true
   | SessionPhase.Streaming => w.session.everConnected = true
   | SessionPhase.Updating => w.session.everConnected = true) ∧
  (match w.session.pending with
   | some (_, k) => w.session.phase = phaseOfPending k
   | none => True) ∧
  w.session.staged.enabledOrder.Nodup ∧
  (match w.session.committed with
   | some c => c.enabledOrder.Nodup
   | none => True) ∧
  w.deviceConfig.enabledOrder.Nodup

theorem cfgSetChannelEnabled_nodup (cfg : StreamConfig) (ch : BaEegChannel) (b : Bool)
    (h : cfg.enabledOrder.Nodup) : (cfgSetChannelEnabled cfg ch b).enabledOrder.Nodup := by
  by_cases h1 : hasAnalogCapability ch
  · cases b
    · simp only [cfgSetChannelEnabled, h1, if_true, Bool.false_eq_true, if_false]
      exact h.filter _
    · by_cases h2 : ch ∈ cfg.enabledOrder
      · simp [cfgSetChannelEnabled, h1, h2]
        exact h
      · have hred : (cfgSetChannelEnabled cfg ch true).enabledOrder =
            cfg.enabledOrder ++ [ch] := by
          simp [cfgSetChannelEnabled, h1, h2]
        rw [hred]
        exact h.append (List.nodup_singleton ch) (List.disjoint_singleton.2 h2)
  · simp [cfgSetChannelEnabled, h1]
    exact h

theorem cfgSetChannelGain_enabledOrder (cfg : StreamConfig) (ch : BaEegChannel) (g : Nat) :
    (cfgSetChannelGain cfg ch g).enabledOrder = cfg.enabledOrder := by
  unfold cfgSetChannelGain; split <;> rfl

theorem cfgSetChannelBias_enabledOrder (cfg : StreamConfig) (ch : BaEegChannel) (p : BaPolarity) :
    (cfgSetChannelBias cfg ch p).enabledOrder = cfg.enabledOrder := by
  unfold cfgSetChannelBias; split <;> rfl

theorem cfgSetImpedanceMode_enabledOrder (cfg : StreamConfig) (m : Nat) :
    (cfgSetImpedanceMode cfg m).enabledOrder = cfg.enabledOrder := rfl

theorem inv_step (w : World) (e : Event) (h : SessionInv w) : SessionInv (step w e).world := by
  obtain ⟨h1, h2, h3, h4, h5⟩ := h
  cases e
  case opConnect =>
    by_cases hc1 : w.session.phase = SessionPhase.Disconnected
    · by_cases hc2 : w.session.pending = none
      · refine ⟨?_, ?_, ?_, ?_, ?_⟩
        · simp [step, hc1, hc2]
        · simp [step, hc1, hc2, phaseOfPending]
        · simpa [step, hc1, hc2] using h3
        · simpa [step, hc1, hc2] using h4
        · simpa [step, hc1, hc2] using h5
      · have hw : (step w Event.opConnect).world = w := by simp [step, hc1, hc2, reject]
        rw [hw]; exact ⟨h1, h2, h3, h4, h5⟩
    · have hw : (step w Event.opConnect).world = w := by simp [step, hc1, reject]
      rw [hw]; exact ⟨h1, h2, h3, h4, h5⟩
  case opDisconnect =>
    by_cases hc1 : w.session.phase = SessionPhase.Disconnected
    · have hw : (step w Event.opDisconnect).world = w := by simp [step, hc1, ignore]
      rw [hw]; exact ⟨h1, h2, h3, h4, h5⟩
    · refine ⟨?_, ?_, ?_, ?_, ?_⟩
      · simp [step, hc1]
      · simp [step, hc1]
      · simpa [step, hc1] using h3
      · simp [step, hc1]
      · simpa [step, hc1] using h5
  case opStartStream =>
    by_cases hc1 : w.session.phase = SessionPhase.Connected
    · by_cases hc2 : w.session.pending = none
      · refine ⟨?_, ?_, ?_, ?_, ?_⟩
        · simpa [step, hc1, hc2] using h1
        · simp [step, hc1, hc2, phaseOfPending, hc1]
        · simpa [step, hc1, hc2] using h3
        · simpa [step, hc1, hc2] using h3
        · simpa [step, hc1, hc2] using h5
      · have hw : (step w Event.opStartStream).world = w := by simp [step, hc1, hc2, reject]
        rw [hw]; exact ⟨h1, h2, h3, h4, h5⟩
    · have hw : (step w Event.opStartStream).world = w := by simp [step, hc1, reject]
      rw [hw]; exact ⟨h1, h2, h3, h4, h5⟩
  case opStopStream =>
    by_cases hc1 : w.session.phase = SessionPhase.Streaming
    · by_cases hc2 : w.session.pending = none
      · refine ⟨?_, ?_, ?_, ?_, ?_⟩
        · simpa [step, hc1, hc2] using h1
        · simp [step, hc1, hc2, phaseOfPending, hc1]
        · simpa [step, hc1, hc2] using h3
        · simpa [step, hc1, hc2] using h4
        · simpa [step, hc1, hc2] using h5
      · have hw : (step w Event.opStopStream).world = w := by simp [step, hc1, hc2, reject]
        rw [hw]; exact ⟨h1, h2, h3, h4, h5⟩
    · have hw : (step w Event.opStopStream).world = w := by simp [step, hc1, reject]
      rw [hw]; exact ⟨h1, h2, h3, h4, h5⟩
  case opLoadConfig =>
    by_cases hc1 : w.session.phase = SessionPhase.Connected
    · by_cases hc2 : w.session.pending = none
      · refine ⟨?_, ?_, ?_, ?_, ?_⟩
        · simpa [step, hc1, hc2] using h1
        · simp [step, hc1, hc2, phaseOfPending, hc1]
        · simpa [step, hc1, hc2] using h3
        · simpa [step, hc1, hc2] using h4
        · simpa [step, hc1, hc2] using h5
      · have hw : (step w Event.opLoadConfig).world = w := by simp [step, hc1, hc2, reject]
        rw [hw]; exact ⟨h1, h2, h3, h4, h5⟩
    · have hw : (step w Event.opLoadConfig).world = w := by simp [step, hc1, reject]
      rw [hw]; exact ⟨h1, h2, h3, h4, h5⟩
  case opStartUpdate =>
    by_cases hc1 : w.session.phase = SessionPhase.Connected
    · by_cases hc2 : w.session.pending = none
      · by_cases hc3 : w.updateFileOk = true
        · have hev : w.session.everConnected = true := by
            rw [hc1] at h1; exact h1
          refine ⟨?_, ?_, ?_, ?_, ?_⟩
          · simpa [step, hc1, hc2, hc3] using hev
          · simp [step, hc1, hc2, hc3, phaseOfPending]
          · simpa [step, hc1, hc2, hc3] using h3
          · simpa [step, hc1, hc2, hc3] using h4
          · simpa [step, hc1, hc2, hc3] using h5
        · refine ⟨?_, ?_, ?_, ?_, ?_⟩
          · simpa [step, hc1, hc2, hc3] using h1
          · simpa [step, hc1, hc2, hc3] using h2
          · simpa [step, hc1, hc2, hc3] using h3
          · simpa [step, hc1, hc2, hc3] using h4
          · simpa [step, hc1, hc2, hc3] using h5
      · have hw : (step w Event.opStartUpdate).world = w := by simp [step, hc1, hc2, reject]
        rw [hw]; exact ⟨h1, h2, h3, h4, h5⟩
    · have hw : (step w Event.opStartUpdate).world = w := by simp [step, hc1, reject]
      rw [hw]; exact ⟨h1, h2, h3, h4, h5⟩
  case opSetChannelEnabled ch b =>
    refine ⟨?_, ?_, ?_, ?_, ?_⟩
    · simpa [step] using h1
    · simpa [step] using h2
    · simpa [step] using cfgSetChannelEnabled_nodup w.session.staged ch b h3
    · simpa [step] using h4
    · simpa [step] using h5
  case opSetChannelGain ch g =>
    refine ⟨?_, ?_, ?_, ?_, ?_⟩
    · simpa [step] using h1
    · simpa [step] using h2
    · simpa [step, cfgSetChannelGain_enabledOrder] using h3
    · simpa [step] using h4
    · simpa [step] using h5
  case opSetChannelBias ch p =>
    refine ⟨?_, ?_, ?_, ?_, ?_⟩
    · simpa [step] using h1
    · simpa [step] using h2
    · simpa [step, cfgSetChannelBias_enabledOrder] using h3
    · simpa [step] using h4
    · simpa [step] using h5
  case opSetImpedanceMode m =>
    refine ⟨?_, ?_, ?_, ?_, ?_⟩
    · simpa [step] using h1
    · simpa [step] using h2
    · simpa [step, cfgSetImpedanceMode_enabledOrder] using h3
    · simpa [step] using h4
    · simpa [step] using h5
  case opAnnotate ts txt =>
    by_cases hc1 : w.session.phase = SessionPhase.Streaming
    · refine ⟨?_, ?_, ?_, ?_, ?_⟩
      · simpa [step, hc1] using h1
      · simpa [step, hc1] using h2
      · simpa [step, hc1] using h3
      · simpa [step, hc1] using h4
      · simpa [step, hc1] using h5
    · have hw : (step w (Event.opAnnotate ts txt)).world = w := by simp [step, hc1, reject]
      rw [hw]; exact ⟨h1, h2, h3, h4, h5⟩
  case opClearAnnotations =>
    refine ⟨?_, ?_, ?_, ?_, ?_⟩
    · simpa [step] using h1
    · simpa [step] using h2
    · simpa [step] using h3
    · simpa [step] using h4
    · simpa [step] using h5
  case opSetCallbackChunk b =>
    refine ⟨?_, ?_, ?_, ?_, ?_⟩
    · simpa [step] using h1
    · simpa [step] using h2
    · simpa [step] using h3
    · simpa [step] using h4
    · simpa [step] using h5
  case opSetCallbackBattery b =>
    refine ⟨?_, ?_, ?_, ?_, ?_⟩
    · simpa [step] using h1
    · simpa [step] using h2
    · simpa [step] using h3
    · simpa [step] using h4
    · simpa [step] using h5
  case opSetCallbackDisconnect b =>
    refine ⟨?_, ?_, ?_, ?_, ?_⟩
    · simpa [step] using h1
    · simpa [step] using h2
    · simpa [step] using h3
    · simpa [step] using h4
    · simpa [step] using h5
  case devAckConnect success =>
    rcases hp : w.session.pending with _ | ⟨t, k⟩
    · have hw : (step w (Event.devAckConnect success)).world = w := by
        simp [step, hp, ignore]
      rw [hw]; exact ⟨h1, h2, h3, h4, h5⟩
    · cases k
      case connectOp =>
        cases success
        · refine ⟨?_, ?_, ?_, ?_, ?_⟩
          · simp [step, hp]
          · simp [step, hp]
          · simpa [step, hp] using h3
          · simpa [step, hp] using h4
          · simpa [step, hp] using h5
        · refine ⟨?_, ?_, ?_, ?_, ?_⟩
          · simp [step, hp]
          · simp [step, hp]
          · simpa [step, hp] using h3
          · simpa [step, hp] using h4
          · simpa [step, hp] using h5
      case startOp =>
        have hw : (step w (Event.devAckConnect success)).world = w := by
          simp [step, hp, ignore]
        rw [hw]; exact ⟨h1, h2, h3, h4, h5⟩
      case stopOp =>
        have hw : (step w (Event.devAckConnect success)).world = w := by
          simp [step, hp, ignore]
        rw [hw]; exact ⟨h1, h2, h3, h4, h5⟩
      case loadOp =>
        have hw : (step w (Event.devAckConnect success)).world = w := by
          simp [step, hp, ignore]
        rw [hw]; exact ⟨h1, h2, h3, h4, h5⟩
      case updateOp =>
        have hw : (step w (Event.devAckConnect success)).world = w := by
          simp [step, hp, ignore]
        rw [hw]; exact ⟨h1, h2, h3, h4, h5⟩
  case devAckStart success =>
    rcases hp : w.session.pending with _ | ⟨t, k⟩
    · have hw : (step w (Event.devAckStart success)).world = w := by
        simp [step, hp, ignore]
      rw [hw]; exact ⟨h1, h2, h3, h4, h5⟩
    · cases k
      case startOp =>
        have hph : w.session.phase = SessionPhase.Connected := by
          rw [hp] at h2; simpa [phaseOfPending] using h2
        have hev : w.session.everConnected = true := by
          rw [hph] at h1; exact h1
        cases success
        · refine ⟨?_, ?_, ?_, ?_, ?_⟩
          · simpa [step, hp] using h1
          · simp [step, hp]
          · simpa [step, hp] using h3
          · simp [step, hp]
          · simpa [step, hp] using h5
        · refine ⟨?_, ?_, ?_, ?_, ?_⟩
          · simpa [step, hp] using hev
          · simp [step, hp]
          · simpa [step, hp] using h3
          · simpa [step, hp] using h4
          · rcases hcm : w.session.committed with _ | c
            · simpa [step, hp, hcm] using h5
            · rw [hcm] at h4
              simpa [step, hp, hcm] using h4
      case connectOp =>
        have hw : (step w (Event.devAckStart success)).world = w := by
          simp [step, hp, ignore]
        rw [hw]; exact ⟨h1, h2, h3, h4, h5⟩
      case stopOp =>
        have hw : (step w (Event.devAckStart success)).world = w := by
          simp [step, hp, ignore]
        rw [hw]; exact ⟨h1, h2, h3, h4, h5⟩
      case loadOp =>
        have hw : (step w (Event.devAckStart success)).world = w := by
          simp [step, hp, ignore]
        rw [hw]; exact ⟨h1, h2, h3, h4, h5⟩
      case updateOp =>
        have hw : (step w (Event.devAckStart success)).world = w := by
          simp [step, hp, ignore]
        rw [hw]; exact ⟨h1, h2, h3, h4, h5⟩
  case devAckStop =>
    rcases hp : w.session.pending with _ | ⟨t, k⟩
    · have hw : (step w Event.devAckStop).world = w := by simp [step, hp, ignore]
      rw [hw]; exact ⟨h1, h2, h3, h4, h5⟩
    · cases k
      case stopOp =>
        have hph : w.session.phase = SessionPhase.Streaming := by
          rw [hp] at h2; simpa [phaseOfPending] using h2
        have hev : w.session.everConnected = true := by
          rw [hph] at h1; exact h1
        refine ⟨?_, ?_, ?_, ?_, ?_⟩
        · simpa [step, hp] using hev
        · simp [step, hp]
        · simp [step, hp, defaultStreamConfig]
        · simp [step, hp]
        · simpa [step, hp] using h5
      case connectOp =>
        have hw : (step w Event.devAckStop).world = w := by simp [step, hp, ignore]
        rw [hw]; exact ⟨h1, h2, h3, h4, h5⟩
      case startOp =>
        have hw : (step w Event.devAckStop).world = w := by simp [step, hp, ignore]
        rw [hw]; exact ⟨h1, h2, h3, h4, h5⟩
      case loadOp =>
        have hw : (step w Event.devAckStop).world = w := by simp [step, hp, ignore]
        rw [hw]; exact ⟨h1, h2, h3, h4, h5⟩
      case updateOp =>
        have hw : (step w Event.devAckStop).world = w := by simp [step, hp, ignore]
        rw [hw]; exact ⟨h1, h2, h3, h4, h5⟩
  case devAckLoad =>
    rcases hp : w.session.pending with _ | ⟨t, k⟩
    · have hw : (step w Event.devAckLoad).world = w := by simp [step, hp, ignore]
      rw [hw]; exact ⟨h1, h2, h3, h4, h5⟩
    · cases k
      case loadOp =>
        refine ⟨?_, ?_, ?_, ?_, ?_⟩
        · simpa [step, hp] using h1
        · simp [step, hp]
        · simpa [step, hp] using h5
        · simpa [step, hp] using h4
        · simpa [step, hp] using h5
      case connectOp =>
        have hw : (step w Event.devAckLoad).world = w := by simp [step, hp, ignore]
        rw [hw]; exact ⟨h1, h2, h3, h4, h5⟩
      case startOp =>
        have hw : (step w Event.devAckLoad).world = w := by simp [step, hp, ignore]
        rw [hw]; exact ⟨h1, h2, h3, h4, h5⟩
      case stopOp =>
        have hw : (step w Event.devAckLoad).world = w := by simp [step, hp, ignore]
        rw [hw]; exact ⟨h1, h2, h3, h4, h5⟩
      case updateOp =>
        have hw : (step w Event.devAckLoad).world = w := by simp [step, hp, ignore]
        rw [hw]; exact ⟨h1, h2, h3, h4, h5⟩
  case devAckUpdate success =>
    rcases hp : w.session.pending with _ | ⟨t, k⟩
    · have hw : (step w (Event.devAckUpdate success)).world = w := by
        simp [step, hp, ignore]
      rw [hw]; exact ⟨h1, h2, h3, h4, h5⟩
    · cases k
      case updateOp =>
        have hph : w.session.phase = SessionPhase.Updating := by
          rw [hp] at h2; simpa [phaseOfPending] using h2
        have hev : w.session.everConnected = true := by
          rw [hph] at h1; exact h1
        cases success
        · refine ⟨?_, ?_, ?_, ?_, ?_⟩
          · simp [step, hp]
          · simp [step, hp]
          · simpa [step, hp] using h3
          · simp [step, hp]
          · simpa [step, hp] using h5
        · refine ⟨?_, ?_, ?_, ?_, ?_⟩
          · simpa [step, hp] using hev
          · simp [step, hp]
          · simpa [step, hp] using h3
          · simpa [step, hp] using h4
          · simpa [step, hp] using h5
      case connectOp =>
        have hw : (step w (Event.devAckUpdate success)).world = w := by
          simp [step, hp, ignore]
        rw [hw]; exact ⟨h1, h2, h3, h4, h5⟩
      case startOp =>
        have hw : (step w (Event.devAckUpdate success)).world = w := by
          simp [step, hp, ignore]
        rw [hw]; exact ⟨h1, h2, h3, h4, h5⟩
      case stopOp =>
        have hw : (step w (Event.devAckUpdate success)).world = w := by
          simp [step, hp, ignore]
        rw [hw]; exact ⟨h1, h2, h3, h4, h5⟩
      case loadOp =>
        have hw : (step w (Event.devAckUpdate success)).world = w := by
          simp [step, hp, ignore]
        rw [hw]; exact ⟨h1, h2, h3, h4, h5⟩
  case devLinkLost =>
    by_cases hc1 : w.session.phase = SessionPhase.Disconnected
    · have hw : (step w Event.devLinkLost).world = w := by
        simp [step, onLinkLost, hc1, ignore]
      rw [hw]; exact ⟨h1, h2, h3, h4, h5⟩
    · refine ⟨?_, ?_, ?_, ?_, ?_⟩
      · simp [step, onLinkLost, hc1]
      · simp [step, onLinkLost, hc1]
      · simpa [step, onLinkLost, hc1] using h3
      · simp [step, onLinkLost, hc1]
      · simpa [step, onLinkLost, hc1] using h5
  case devChunk =>
    by_cases hc1 : w.session.phase = SessionPhase.Streaming
    · have hw : (step w Event.devChunk).world = w := by simp [step, hc1]
      rw [hw]; exact ⟨h1, h2, h3, h4, h5⟩
    · have hw : (step w Event.devChunk).world = w := by simp [step, hc1, ignore]
      rw [hw]; exact ⟨h1, h2, h3, h4, h5⟩
  case devBatteryPush v =>
    refine ⟨?_, ?_, ?_, ?_, ?_⟩
    · simpa [step] using h1
    · simpa [step] using h2
    · simpa [step] using h3
    · simpa [step] using h4
    · simpa [step] using h5

theorem inv_run (es : List Event) : ∀ (w : World), SessionInv w → SessionInv (run w es).1 := by
  induction es with
  | nil => intro w h; exact h
  | cons e es ih =>
    intro w h
    exact ih (step w e).world (inv_step w e h)

theorem inv_initWorld : SessionInv initWorld := by
  refine ⟨trivial, trivial, ?_, trivial, ?_⟩ <;>
    simp [initWorld, defaultStreamConfig]

theorem pendBound_initWorld : pendBound initWorld := by
  intro t k hk
  simp [initWorld] at hk

/-! ## Concrete worlds used by the witnesses -/

/-- Electrode channel A. -/
def chA : BaEegChannel := BaEegChannel.electrodeMeasurement 0

/-- Electrode channel B. -/
def chB : BaEegChannel := BaEegChannel.electrodeMeasurement 1

/-- Electrode channel C. -/
def chC : BaEegChannel := BaEegChannel.electrodeMeasurement 2

/-- A configuration with channels A, B, C enabled in that order. -/
def cfgABC : StreamConfig :=
  ⟨[chA, chB, chC], fun _ => 0, fun _ => BaPolarity.noneP, 0⟩

/-- A streaming session with configuration `cfgABC` committed and all
callbacks registered. -/
def wStreaming : World :=
  ⟨⟨SessionPhase.Streaming, defaultStreamConfig, some cfgABC, none, 2, [], true, 0,
      true, true, true⟩, cfgABC, true⟩

/-- A streaming session with all callbacks set to null. -/
def wQuiet : World :=
  ⟨⟨SessionPhase.Streaming, defaultStreamConfig, some cfgABC, none, 2, [], true, 0,
      false, false, false⟩, cfgABC, true⟩

/-- A connected session with configuration `cfgABC` staged but not started. -/
def wConnected : World :=
  ⟨⟨SessionPhase.Connected, cfgABC, none, none, 5, [], true, 0,
      false, false, false⟩, defaultStreamConfig, true⟩

/-- A connected session with a start-stream completion pending and the
disconnect callback registered. -/
def wStartPending : World :=
  ⟨⟨SessionPhase.Connected, cfgABC, some cfgABC, some (3, OpKind.startOp), 4, [],
      true, 0, true, true, true⟩, defaultStreamConfig, true⟩

/-! ## Claim theorems -/

/-- C9: success of a session operation is exactly the return value 0
(`BA_ERROR_OK`), and the defined failure codes of `ba_error` are pairwise
distinct, nonzero, and representable in `uint8_t`, so a caller can test
success against zero and branch on the specific nonzero code. -/
theorem ba_error_codes_distinct_nonzero :
    BA_ERROR_OK = 0 ∧ baErrorFailureCodes.Nodup ∧
    baErrorFailureCodes.all (fun c => decide (c ≠ 0) && decide (c < 256)) = true := by
  decide

/-- C1: along every sequence of operations and transport events from the
initial state, no operation token is completed twice, every issued operation
is either still pending or has been completed exactly once (no pending
completion is lost), and the session state always satisfies its invariant —
the machine never reaches an undefined state. -/
theorem session_completions_fire_exactly_once (es : List Event) (t : Nat) :
    compCount t (run initWorld es).2 ≤ 1 ∧
    (t < (run initWorld es).1.session.nextToken →
      pendingTok (run initWorld es).1 = some t ∨
        compCount t (run initWorld es).2 = 1) ∧
    SessionInv (run initWorld es).1 ∧ pendBound (run initWorld es).1 := by
  obtain ⟨hB, hM, hD, hP, hN⟩ := run_ledger es initWorld pendBound_initWorld
  have hN' := hN t (Nat.zero_le t)
  refine ⟨?_, ?_, inv_run es initWorld inv_initWorld, hB⟩
  · rcases hN' with ⟨_, c0, _⟩ | ⟨c1, _, _⟩ | ⟨c0, _, _⟩ <;> omega
  · intro hlt
    rcases hN' with ⟨pe, _, _⟩ | ⟨c1, _, _⟩ | ⟨_, _, hge⟩
    · exact Or.inl pe
    · exact Or.inr c1
    · omega

/-- Witness for C1: after a connect that is acknowledged successfully, the
token of the connect operation has been completed exactly once. -/
theorem session_completions_fire_exactly_once_witness :
    pendingTok (run initWorld [Event.opConnect, Event.devAckConnect true]).1 = some 0 ∨
      compCount 0 (run initWorld [Event.opConnect, Event.devAckConnect true]).2 = 1 :=
  (session_completions_fire_exactly_once [Event.opConnect, Event.devAckConnect true] 0).2.1
    (by decide)

/-- C2: a link_lost event while a start_stream completion is pending resolves
that completion as failed-due-to-disconnection exactly once, fires the
registered disconnect callback, and forces the session to Disconnected with
nothing left pending. -/
theorem link_lost_resolves_pending_start_stream (w : World) (t : Nat)
    (hp : w.session.pending = some (t, OpKind.startOp))
    (hph : w.session.phase = SessionPhase.Connected)
    (hcb : w.session.disconnectCb = true) :
    (step w Event.devLinkLost).out =
      [OutEvent.completion t CompletionRes.failedDisconnected,
        OutEvent.disconnectCallback] ∧
    (step w Event.devLinkLost).world.session.phase = SessionPhase.Disconnected ∧
    (step w Event.devLinkLost).world.session.pending = none := by
  refine ⟨?_, ?_, ?_⟩ <;>
    simp [step, onLinkLost, hph, hp, hcb, resolveAllPending]

/-- Witness for C2 at a concrete connected session with a pending stream
start. -/
theorem link_lost_resolves_pending_start_stream_witness :
    (step wStartPending Event.devLinkLost).out =
      [OutEvent.completion 3 CompletionRes.failedDisconnected,
        OutEvent.disconnectCallback] ∧
    (step wStartPending Event.devLinkLost).world.session.phase =
      SessionPhase.Disconnected ∧
    (step wStartPending Event.devLinkLost).world.session.pending = none :=
  link_lost_resolves_pending_start_stream wStartPending 3 rfl rfl rfl

/-- C3: calling start_stream again while a stream start is in flight or the
session is already Streaming returns the distinguished precondition-violation
error, changes nothing (so the first call's eventual completion is
unaffected), and the rest of any run is exactly as without the second call. -/
theorem start_stream_twice_rejected (w : World) (es : List Event)
    (h : w.session.phase = SessionPhase.Streaming ∨
      ∃ t, w.session.pending = some (t, OpKind.startOp)) :
    (ba_eeg_manager_start_stream w).ret = BA_ERROR_WRONG_VALUE ∧
    (ba_eeg_manager_start_stream w).world = w ∧
    (ba_eeg_manager_start_stream w).out = [] ∧
    run w (Event.opStartStream :: es) = run w es := by
  have hrej : step w Event.opStartStream = reject w := by
    rcases h with h | ⟨t, hp⟩
    · have hne : w.session.phase ≠ SessionPhase.Connected := by rw [h]; simp
      simp [step, hne]
    · by_cases hc : w.session.phase = SessionPhase.Connected
      · simp [step, hc, hp]
      · simp [step, hc]
  refine ⟨?_, ?_, ?_, ?_⟩
  · rw [ba_eeg_manager_start_stream, hrej]; rfl
  · rw [ba_eeg_manager_start_stream, hrej]; rfl
  · rw [ba_eeg_manager_start_stream, hrej]; rfl
  · have hdef : run w (Event.opStartStream :: es) =
        ((run (step w Event.opStartStream).world es).1,
          (step w Event.opStartStream).out ++
            (run (step w Event.opStartStream).world es).2) := rfl
    rw [hdef, hrej]
    simp [reject]

/-- Witness for C3: a second start_stream on an already-streaming session. -/
theorem start_stream_twice_rejected_witness :
    (ba_eeg_manager_start_stream wStreaming).ret = BA_ERROR_WRONG_VALUE ∧
    (ba_eeg_manager_start_stream wStreaming).world = wStreaming ∧
    (ba_eeg_manager_start_stream wStreaming).out = [] ∧
    run wStreaming (Event.opStartStream :: []) = run wStreaming [] :=
  start_stream_twice_rejected wStreaming [] (Or.inl rfl)

/-- C5: stop_stream is accepted from Streaming; on device acknowledgement the
session moves to Connected, the committed configuration is discarded and the
staged stream settings (channel enables, gains, biases, impedance mode) are
reset to their defaults, so everything must be re-staged before the next
start; from any non-Streaming state the call is rejected with the
precondition-violation error and changes nothing. -/
theorem stop_stream_resets_stream_settings (w w' : World)
    (hph : w.session.phase = SessionPhase.Streaming)
    (hp : w.session.pending = none)
    (hph' : w'.session.phase ≠ SessionPhase.Streaming) :
    (ba_eeg_manager_stop_stream w).ret = BA_ERROR_OK ∧
    (step (ba_eeg_manager_stop_stream w).world Event.devAckStop).world.session.phase =
      SessionPhase.Connected ∧
    (step (ba_eeg_manager_stop_stream w).world Event.devAckStop).world.session.staged =
      defaultStreamConfig ∧
    (step (ba_eeg_manager_stop_stream w).world Event.devAckStop).world.session.committed =
      none ∧
    (step (ba_eeg_manager_stop_stream w).world Event.devAckStop).out =
      [OutEvent.completion w.session.nextToken CompletionRes.ok] ∧
    (ba_eeg_manager_stop_stream w').ret = BA_ERROR_WRONG_VALUE ∧
    (ba_eeg_manager_stop_stream w').world = w' := by
  refine ⟨?_, ?_, ?_, ?_, ?_, ?_, ?_⟩ <;>
    simp [ba_eeg_manager_stop_stream, step, hph, hp, hph', reject]

/-- Witness for C5 at a concrete streaming session and the initial
(disconnected) one. -/
theorem stop_stream_resets_stream_settings_witness :
    (ba_eeg_manager_stop_stream wStreaming).ret = BA_ERROR_OK ∧
    (step (ba_eeg_manager_stop_stream wStreaming).world Event.devAckStop).world.session.phase =
      SessionPhase.Connected ∧
    (step (ba_eeg_manager_stop_stream wStreaming).world Event.devAckStop).world.session.staged =
      defaultStreamConfig ∧
    (step (ba_eeg_manager_stop_stream wStreaming).world Event.devAckStop).world.session.committed =
      none ∧
    (step (ba_eeg_manager_stop_stream wStreaming).world Event.devAckStop).out =
      [OutEvent.completion wStreaming.session.nextToken CompletionRes.ok] ∧
    (ba_eeg_manager_stop_stream initWorld).ret = BA_ERROR_WRONG_VALUE ∧
    (ba_eeg_manager_stop_stream initWorld).world = initWorld :=
  stop_stream_resets_stream_settings wStreaming initWorld rfl rfl (by decide)

/-- The events that clear the annotation log or append to it; every other
event leaves the log untouched. -/
def touchesLog : Event → Bool
  | Event.opDisconnect => true
  | Event.opClearAnnotations => true
  | Event.devLinkLost => true
  | Event.devAckUpdate _ => true
  | Event.opAnnotate _ _ => true
  | _ => false

theorem step_preserves_annotations (w : World) (e : Event)
    (he : touchesLog e = false) :
    (step w e).world.session.annotations = w.session.annotations := by
  cases e <;> simp [touchesLog] at he
  all_goals simp only [step]
  all_goals repeat' split
  all_goals simp [reject, ignore]

/-- C7: annotate before the first successful connect is rejected with an
error and changes nothing; every annotation added during Streaming is
appended, and get_annotations returns the log in append order; events other
than disconnection, clearing and annotating retain the log; after
disconnect() the log is empty. -/
theorem annotation_log_lifecycle (w w2 : World) (ts : Nat) (txt : String)
    (hinv : SessionInv w)
    (hnc : w.session.everConnected = false)
    (h2 : w2.session.phase = SessionPhase.Streaming) :
    ((ba_eeg_manager_annotate w ts txt).ret = BA_ERROR_WRONG_VALUE ∧
      (ba_eeg_manager_annotate w ts txt).world = w) ∧
    ((ba_eeg_manager_annotate w2 ts txt).ret = BA_ERROR_OK ∧
      ba_eeg_manager_get_annotations (ba_eeg_manager_annotate w2 ts txt).world =
        ba_eeg_manager_get_annotations w2 ++ [(ts, txt)]) ∧
    (∀ e, touchesLog e = false →
      ba_eeg_manager_get_annotations (step w2 e).world =
        ba_eeg_manager_get_annotations w2) ∧
    ba_eeg_manager_get_annotations (ba_eeg_manager_disconnect w2).world = [] := by
  have hph : w.session.phase ≠ SessionPhase.Streaming := by
    intro hx
    obtain ⟨h1, _, _, _, _⟩ := hinv
    rw [hx] at h1
    rw [hnc] at h1
    exact Bool.noConfusion h1
  have hnd : w2.session.phase ≠ SessionPhase.Disconnected := by
    rw [h2]; simp
  refine ⟨?_, ?_, ?_, ?_⟩
  · constructor <;> simp [ba_eeg_manager_annotate, step, hph, reject]
  · constructor <;>
      simp [ba_eeg_manager_annotate, step, h2, ba_eeg_manager_get_annotations]
  · intro e he
    simpa [ba_eeg_manager_get_annotations] using step_preserves_annotations w2 e he
  · simp [ba_eeg_manager_disconnect, step, hnd, ba_eeg_manager_get_annotations]

/-- Witness for C7: the initial world has never connected; `wStreaming` is
streaming. -/
theorem annotation_log_lifecycle_witness :
    ((ba_eeg_manager_annotate initWorld 7 "mark").ret = BA_ERROR_WRONG_VALUE ∧
      (ba_eeg_manager_annotate initWorld 7 "mark").world = initWorld) ∧
    ((ba_eeg_manager_annotate wStreaming 7 "mark").ret = BA_ERROR_OK ∧
      ba_eeg_manager_get_annotations (ba_eeg_manager_annotate wStreaming 7 "mark").world =
        ba_eeg_manager_get_annotations wStreaming ++ [(7, "mark")]) ∧
    (∀ e, touchesLog e = false →
      ba_eeg_manager_get_annotations (step wStreaming e).world =
        ba_eeg_manager_get_annotations wStreaming) ∧
    ba_eeg_manager_get_annotations (ba_eeg_manager_disconnect wStreaming).world = [] :=
  annotation_log_lifecycle initWorld wStreaming 7 "mark" inv_initWorld rfl rfl

/-- C8: each configuration mutator is accepted in any state, returns success,
emits nothing, and replaces only the staged configuration — phase, pending
operation, committed (active-stream) configuration, annotations and the
device's persisted configuration are untouched; and mutating a channel that
lacks the analog-measurement capability is a complete no-op. -/
theorem config_mutators_staged_only (w : World) (ch : BaEegChannel)
    (g : Nat) (p : BaPolarity) (b : Bool) (m : Nat) :
    ((ba_eeg_manager_set_channel_enabled w ch b).world =
        { w with session := { w.session with
            staged := cfgSetChannelEnabled w.session.staged ch b } } ∧
      (ba_eeg_manager_set_channel_enabled w ch b).out = [] ∧
      (ba_eeg_manager_set_channel_enabled w ch b).ret = BA_ERROR_OK) ∧
    ((ba_eeg_manager_set_channel_gain w ch g).world =
        { w with session := { w.session with
            staged := cfgSetChannelGain w.session.staged ch g } } ∧
      (ba_eeg_manager_set_channel_gain w ch g).out = [] ∧
      (ba_eeg_manager_set_channel_gain w ch g).ret = BA_ERROR_OK) ∧
    ((ba_eeg_manager_set_channel_bias w ch p).world =
        { w with session := { w.session with
            staged := cfgSetChannelBias w.session.staged ch p } } ∧
      (ba_eeg_manager_set_channel_bias w ch p).out = [] ∧
      (ba_eeg_manager_set_channel_bias w ch p).ret = BA_ERROR_OK) ∧
    ((ba_eeg_manager_set_impedance_mode w m).world =
        { w with session := { w.session with
            staged := cfgSetImpedanceMode w.session.staged m } } ∧
      (ba_eeg_manager_set_impedance_mode w m).out = [] ∧
      (ba_eeg_manager_set_impedance_mode w m).ret = BA_ERROR_OK) ∧
    (hasAnalogCapability ch = false →
      (ba_eeg_manager_set_channel_enabled w ch b).world = w ∧
      (ba_eeg_manager_set_channel_gain w ch g).world = w ∧
      (ba_eeg_manager_set_channel_bias w ch p).world = w) := by
  refine ⟨⟨rfl, rfl, rfl⟩, ⟨rfl, rfl, rfl⟩, ⟨rfl, rfl, rfl⟩, ⟨rfl, rfl, rfl⟩, ?_⟩
  intro hcap
  refine ⟨?_, ?_, ?_⟩ <;>
    simp [ba_eeg_manager_set_channel_enabled, ba_eeg_manager_set_channel_gain,
      ba_eeg_manager_set_channel_bias, step, cfgSetChannelEnabled,
      cfgSetChannelGain, cfgSetChannelBias, hcap]

/-- Witness for C8: mutating the sample-counter channel is a no-op. -/
theorem config_mutators_staged_only_witness :
    (ba_eeg_manager_set_channel_enabled wStreaming BaEegChannel.sampleCounter true).world =
      wStreaming ∧
    (ba_eeg_manager_set_channel_gain wStreaming BaEegChannel.sampleCounter 3).world =
      wStreaming ∧
    (ba_eeg_manager_set_channel_bias wStreaming BaEegChannel.sampleCounter
        BaPolarity.bothP).world = wStreaming :=
  (config_mutators_staged_only wStreaming BaEegChannel.sampleCounter 3
      BaPolarity.bothP true 2).2.2.2.2 rfl

/-- C10: with a null (unregistered) callback, inbound chunk, battery and
disconnect events invoke no user callback, while the session keeps processing
them normally: a chunk event changes nothing, a battery push still updates the
battery cache, and a link loss still forces the session to Disconnected. -/
theorem null_callbacks_disable_delivery (w : World) (v : Nat)
    (hck : w.session.chunkCb = false)
    (hbt : w.session.batteryCb = false)
    (hdc : w.session.disconnectCb = false) :
    ((ba_eeg_manager_set_callback_chunk w false).world.session.chunkCb = false ∧
      (ba_eeg_manager_set_callback_battery w false).world.session.batteryCb = false ∧
      (ba_eeg_manager_set_callback_disconnect w false).world.session.disconnectCb = false) ∧
    ((step w Event.devChunk).out = [] ∧ (step w Event.devChunk).world = w) ∧
    ((step w (Event.devBatteryPush v)).out = [] ∧
      (step w (Event.devBatteryPush v)).world.session.battery = v) ∧
    (OutEvent.disconnectCallback ∉ (step w Event.devLinkLost).out ∧
      (w.session.phase ≠ SessionPhase.Disconnected →
        (step w Event.devLinkLost).world.session.phase = SessionPhase.Disconnected)) := by
  refine ⟨⟨rfl, rfl, rfl⟩, ?_, ?_, ?_, ?_⟩
  · by_cases hs : w.session.phase = SessionPhase.Streaming <;>
      constructor <;> simp [step, hs, hck, ignore]
  · constructor <;> simp [step, hbt]
  · by_cases hs : w.session.phase = SessionPhase.Disconnected
    · simp [step, onLinkLost, hs, ignore]
    · rcases hp : w.session.pending with _ | ⟨t, k⟩ <;>
        simp [step, onLinkLost, hs, hp, hdc, resolveAllPending]
  · intro hs
    simp [step, onLinkLost, hs]

/-- Witness for C10 at a streaming session with all callbacks null. -/
theorem null_callbacks_disable_delivery_witness :
    ((ba_eeg_manager_set_callback_chunk wQuiet false).world.session.chunkCb = false ∧
      (ba_eeg_manager_set_callback_battery wQuiet false).world.session.batteryCb = false ∧
      (ba_eeg_manager_set_callback_disconnect wQuiet false).world.session.disconnectCb = false) ∧
    ((step wQuiet Event.devChunk).out = [] ∧ (step wQuiet Event.devChunk).world = wQuiet) ∧
    ((step wQuiet (Event.devBatteryPush 9)).out = [] ∧
      (step wQuiet (Event.devBatteryPush 9)).world.session.battery = 9) ∧
    (OutEvent.disconnectCallback ∉ (step wQuiet Event.devLinkLost).out ∧
      (wQuiet.session.phase ≠ SessionPhase.Disconnected →
        (step wQuiet Event.devLinkLost).world.session.phase = SessionPhase.Disconnected)) :=
  null_callbacks_disable_delivery wQuiet 9 rfl rfl rfl

/-- C4: while Streaming, get_channel_index restricted to the channels
committed at stream start is a strict order-preserving bijection onto
0..n-1 matching enable order, and every channel not enabled for the current
stream — in particular every channel when zero channels were enabled — gets
the not-present sentinel `(size_t)-1`. -/
theorem get_channel_index_stream_bijection (w : World) (c : StreamConfig)
    (hinv : SessionInv w)
    (hph : w.session.phase = SessionPhase.Streaming)
    (hcm : w.session.committed = some c) :
    (∀ i : Fin c.enabledOrder.length,
      ba_eeg_manager_get_channel_index w (c.enabledOrder.get i) = i.val) ∧
    (∀ ch, ch ∈ c.enabledOrder →
      ba_eeg_manager_get_channel_index w ch < c.enabledOrder.length) ∧
    (∀ ch1 ch2, ch1 ∈ c.enabledOrder → ch2 ∈ c.enabledOrder →
      ba_eeg_manager_get_channel_index w ch1 = ba_eeg_manager_get_channel_index w ch2 →
      ch1 = ch2) ∧
    (∀ ch, ch ∉ c.enabledOrder → ba_eeg_manager_get_channel_index w ch = SIZE_MAX) ∧
    (c.enabledOrder = [] → ∀ ch, ba_eeg_manager_get_channel_index w ch = SIZE_MAX) := by
  have hnd : c.enabledOrder.Nodup := by
    obtain ⟨_, _, _, h4, _⟩ := hinv
    rw [hcm] at h4
    exact h4
  have hidx : ∀ ch, ch ∈ c.enabledOrder →
      ba_eeg_manager_get_channel_index w ch = c.enabledOrder.indexOf ch := by
    intro ch hm
    simp [ba_eeg_manager_get_channel_index, hph, hcm, hm]
  have hsent : ∀ ch, ch ∉ c.enabledOrder →
      ba_eeg_manager_get_channel_index w ch = SIZE_MAX := by
    intro ch hm
    simp [ba_eeg_manager_get_channel_index, hph, hcm, hm]
  refine ⟨?_, ?_, ?_, hsent, ?_⟩
  · intro i
    rw [List.get_eq_getElem, hidx _ (List.getElem_mem _)]
    exact List.indexOf_getElem hnd i.val i.isLt
  · intro ch hm
    rw [hidx ch hm]
    exact List.indexOf_lt_length.2 hm
  · intro ch1 ch2 h1 h2 he
    rw [hidx _ h1, hidx _ h2] at he
    exact (List.indexOf_inj h1 h2).1 he
  · intro hnil ch
    apply hsent
    rw [hnil]
    simp

/-- Witness for C4: the first committed channel gets index 0 and the
sample-counter channel (never enabled) gets the sentinel. -/
theorem get_channel_index_stream_bijection_witness :
    ba_eeg_manager_get_channel_index wStreaming chA = 0 ∧
    ba_eeg_manager_get_channel_index wStreaming BaEegChannel.sampleCounter = SIZE_MAX :=
  ⟨(get_channel_index_stream_bijection wStreaming cfgABC
      ⟨rfl, trivial, by decide, (by decide : cfgABC.enabledOrder.Nodup), by decide⟩ rfl rfl).1 ⟨0, by decide⟩,
   (get_channel_index_stream_bijection wStreaming cfgABC
      ⟨rfl, trivial, by decide, (by decide : cfgABC.enabledOrder.Nodup), by decide⟩ rfl rfl).2.2.2.1
      BaEegChannel.sampleCounter (by decide)⟩

/-- The four configuration mutators of section 4.1. -/
def isConfigMutator : Event → Bool
  | Event.opSetChannelEnabled _ _ => true
  | Event.opSetChannelGain _ _ => true
  | Event.opSetChannelBias _ _ => true
  | Event.opSetImpedanceMode _ => true
  | _ => false

theorem mutator_step_frame (w : World) (e : Event) (he : isConfigMutator e = true) :
    (step w e).world.session.phase = w.session.phase ∧
    (step w e).world.session.pending = w.session.pending ∧
    (step w e).world.deviceConfig = w.deviceConfig := by
  cases e <;> simp [isConfigMutator] at he <;> simp [step]

theorem mutator_run_frame (ms : List Event) : ∀ w : World,
    (∀ e ∈ ms, isConfigMutator e = true) →
    (run w ms).1.session.phase = w.session.phase ∧
    (run w ms).1.session.pending = w.session.pending ∧
    (run w ms).1.deviceConfig = w.deviceConfig := by
  induction ms with
  | nil => intro w _; exact ⟨rfl, rfl, rfl⟩
  | cons e ms ih =>
    intro w h
    have hs := mutator_step_frame w e (h e (List.mem_cons_self e ms))
    have ihs := ih (step w e).world (fun e' he' => h e' (List.mem_cons_of_mem e he'))
    exact ⟨ihs.1.trans hs.1, ihs.2.1.trans hs.2.1, ihs.2.2.trans hs.2.2⟩

theorem run_append (l1 l2 : List Event) : ∀ w : World,
    (run w (l1 ++ l2)).1 = (run (run w l1).1 l2).1 := by
  induction l1 with
  | nil => intro w; rfl
  | cons e l1 ih => intro w; exact ih (step w e).world

/-- C6: a configuration staged and committed by an acknowledged start_stream
is persisted on the device; after stopping the stream, staging arbitrary
further mutations, disconnecting and reconnecting, a load_config overwrites
the staged configuration with exactly the last successfully committed one —
not the settings that were staged but never started. -/
theorem load_config_round_trip_committed (w : World) (ms : List Event)
    (hph : w.session.phase = SessionPhase.Connected)
    (hp : w.session.pending = none)
    (hms : ∀ e ∈ ms, isConfigMutator e = true) :
    (run w ([Event.opStartStream, Event.devAckStart true, Event.opStopStream,
        Event.devAckStop] ++ ms ++
        [Event.opDisconnect, Event.opConnect, Event.devAckConnect true,
          Event.opLoadConfig, Event.devAckLoad])).1.session.staged =
      w.session.staged := by
  have hsuffix : ∀ w' : World, w'.session.phase = SessionPhase.Connected →
      w'.session.pending = none →
      (run w' [Event.opDisconnect, Event.opConnect, Event.devAckConnect true,
        Event.opLoadConfig, Event.devAckLoad]).1.session.staged = w'.deviceConfig := by
    intro w' h1 h2
    have hnd : w'.session.phase ≠ SessionPhase.Disconnected := by rw [h1]; simp
    simp [run, step, h1, h2, hnd, resolveAllPending]
  have h4 : (run w [Event.opStartStream, Event.devAckStart true, Event.opStopStream,
      Event.devAckStop]).1 =
      { w with
        session := { w.session with
          phase := SessionPhase.Connected, staged := defaultStreamConfig,
          committed := none, pending := none,
          nextToken := w.session.nextToken + 2 },
        deviceConfig := w.session.staged } := by
    simp [run, step, hph, hp]
  rw [run_append, run_append, h4]
  obtain ⟨hf1, hf2, hf3⟩ := mutator_run_frame ms _ hms
  rw [hsuffix _ hf1 hf2, hf3]

/-- Witness for C6: channels A, B, C staged and committed, a gain mutation
staged after the stop, and the load restoring the committed configuration. -/
theorem load_config_round_trip_committed_witness :
    (run wConnected ([Event.opStartStream, Event.devAckStart true, Event.opStopStream,
        Event.devAckStop] ++ [Event.opSetChannelGain chA 7] ++
        [Event.opDisconnect, Event.opConnect, Event.devAckConnect true,
          Event.opLoadConfig, Event.devAckLoad])).1.session.staged =
      wConnected.session.staged :=
  load_config_round_trip_committed wConnected [Event.opSetChannelGain chA 7]
    rfl rfl (by decide)
